import Mathlib

/-!
Shallow embedding of the clustering engine of the live-visitor-map repository
(`src/components/VisitorMap.tsx` and its sibling variants).

Modelling conventions:
* Coordinates arrive as `string | number` in the source and every access goes
  through `parseFloat` (or a `typeof`-guarded parse).  We model the parsed
  value directly: `Option ℚ`, where `none` stands for `NaN` (an unparseable
  coordinate) and `some q` for a finite numeric value.  Arithmetic on parsed
  coordinates propagates `none` exactly as `NaN` propagates in JavaScript,
  and a `distance <= radius` comparison involving `NaN` is false, as in
  JavaScript.
* `visit_count` is `Option ℤ`: `none` models an absent field; the source
  reads it as `v.visit_count || 1`, so `none` and `some 0` both yield `1`.
* `last_seen` is modelled as the integer millisecond timestamp produced by
  `new Date(v.last_seen || 0).getTime()`.
* The merge test of the agglomerative variant compares real numbers
  (`calculateDistance(...) <= 50`); the algorithm is therefore parametrised
  by a predicate `nearP` on the four rational coordinates and instantiated
  with the exact haversine predicate `nearHavProp`.
-/

structure Visitor where
  id : String
  visitor_id : String
  latitude : Option ℚ
  longitude : Option ℚ
  country : String
  city : String
  visit_count : Option ℤ
  last_seen : ℤ
deriving DecidableEq, Repr

structure Cluster where
  latitude : Option ℚ
  longitude : Option ℚ
  visitors : List Visitor
  totalVisits : ℤ
  lastVisitTime : Option ℤ
deriving DecidableEq, Repr

/-- `v.visit_count || 1`: an absent (`undefined`) field and `0` are falsy in
JavaScript, every other integer is truthy. -/
def visitCountOr1 : Option ℤ → ℤ
  | none => 1
  | some 0 => 1
  | some n => n

/-- One step of `reduce((sum, v) => sum + parseFloat(...), ...)`: JavaScript
addition, with `NaN` (`none`) absorbing. -/
def optSumStep : Option ℚ → Option ℚ → Option ℚ
  | some s, some a => some (s + a)
  | _, _ => none

/-- `reduce((sum, v) => sum + parseFloat(...), 0)`: a left fold over the
parsed coordinates; a `NaN` (`none`) member makes the whole sum `NaN`. -/
def optSum (l : List (Option ℚ)) : Option ℚ :=
  l.foldl optSumStep (some 0)

/-- `reduce(...) / list.length`: the unweighted arithmetic mean of the parsed
coordinates. -/
def optMean (l : List (Option ℚ)) : Option ℚ :=
  (optSum l).map (fun s => s / (l.length : ℚ))

/-- `reduce((sum, v) => sum + (v.visit_count || 1), 0)`. -/
def sumVisits (ms : List Visitor) : ℤ :=
  ms.foldl (fun s v => s + visitCountOr1 v.visit_count) 0

/-- `Math.max(...xs)` over a list of timestamps.  The `[]` case returns `0`;
it is never reached from a cluster, whose member list is nonempty
(JavaScript would give `-Infinity` there). -/
def maxLS : List ℤ → ℤ
  | [] => 0
  | x :: xs => xs.foldl max x

/-- `Math.max(...visitors.map(v => new Date(v.last_seen || 0).getTime()))`,
over ALL input visitors, computed before any coordinate filtering. -/
def mostRecentVisit (visitors : List Visitor) : ℤ :=
  maxLS (visitors.map (·.last_seen))

/-- JavaScript `Math.atan2` on real arguments.  The source only calls it with
both arguments nonnegative. -/
noncomputable def atan2 (y x : ℝ) : ℝ :=
  if 0 < x then Real.arctan (y / x)
  else if x = 0 then
    (if 0 < y then Real.pi / 2 else if y < 0 then -(Real.pi / 2) else 0)
  else
    (if 0 ≤ y then Real.arctan (y / x) + Real.pi else Real.arctan (y / x) - Real.pi)

/-- The intermediate `a` of `calculateDistance`:
`sin(dLat/2)*sin(dLat/2) + sin(dLon/2)*sin(dLon/2)*cos(lat1Rad)*cos(lat2Rad)`
with `dLat = (latitude2-latitude1)*π/180`, `dLon = (longitude2-longitude1)*π/180`,
`lat1Rad = latitude1*π/180`, `lat2Rad = latitude2*π/180`. -/
noncomputable def havA (latitude1 longitude1 latitude2 longitude2 : ℝ) : ℝ :=
  Real.sin ((latitude2 - latitude1) * Real.pi / 180 / 2) *
      Real.sin ((latitude2 - latitude1) * Real.pi / 180 / 2) +
    Real.sin ((longitude2 - longitude1) * Real.pi / 180 / 2) *
        Real.sin ((longitude2 - longitude1) * Real.pi / 180 / 2) *
        Real.cos (latitude1 * Real.pi / 180) *
        Real.cos (latitude2 * Real.pi / 180)

/-- `calculateDistance` (haversine, Earth radius `6371` km):
`c = 2 * atan2(sqrt(a), sqrt(1 - a))`, `distance = earthRadius * c`. -/
noncomputable def calculateDistance
    (latitude1 longitude1 latitude2 longitude2 : ℝ) : ℝ :=
  6371 * (2 * atan2 (Real.sqrt (havA latitude1 longitude1 latitude2 longitude2))
    (Real.sqrt (1 - havA latitude1 longitude1 latitude2 longitude2)))

/-- The merge test of the agglomerative `createClusters`:
`calculateDistance(cluster.latitude, cluster.longitude, point.latitude,
point.longitude) <= 50` (the fixed 50 km radius). -/
def nearHavProp (a b x y : ℚ) : Prop :=
  calculateDistance (a : ℝ) (b : ℝ) (x : ℝ) (y : ℝ) ≤ 50

noncomputable instance nearHavPropDec (a b x y : ℚ) : Decidable (nearHavProp a b x y) :=
  Classical.propDecidable _

/-- The initial (or freshly created) cluster of the agglomerative variant:
`{latitude: point.latitude, longitude: point.longitude,
visitors: [point.visitor], totalVisits: point.visitor.visit_count || 1}`;
no `lastVisitTime` field is attached. -/
def seedCluster (p : Visitor) : Cluster :=
  { latitude := p.latitude
    longitude := p.longitude
    visitors := [p]
    totalVisits := visitCountOr1 p.visit_count
    lastVisitTime := none }

/-- The `distance <= radius` test against a cluster's current centre.  A `NaN`
anywhere (an unparsed coordinate) makes the JavaScript comparison false. -/
def clusterNearB (nearP : ℚ → ℚ → ℚ → ℚ → Prop)
    [∀ a b x y, Decidable (nearP a b x y)] (c : Cluster) (p : Visitor) : Bool :=
  match c.latitude, c.longitude, p.latitude, p.longitude with
  | some a, some b, some x, some y => decide (nearP a b x y)
  | _, _, _, _ => false

/-- Propositional form of the merge test: the parsed coordinates all exist and
the predicate holds of them (false whenever a `NaN` is involved). -/
def clusterNearProp (nearP : ℚ → ℚ → ℚ → ℚ → Prop) (c : Cluster) (p : Visitor) : Prop :=
  match c.latitude, c.longitude, p.latitude, p.longitude with
  | some a, some b, some x, some y => nearP a b x y
  | _, _, _, _ => False

/-- Absorbing a visitor into an existing cluster: push the visitor, then
recompute the centre as the unweighted mean of all member coordinates and
`totalVisits` as the sum of `visit_count || 1` over all members. -/
def updateCluster (c : Cluster) (p : Visitor) : Cluster :=
  { latitude := optMean ((c.visitors ++ [p]).map (·.latitude))
    longitude := optMean ((c.visitors ++ [p]).map (·.longitude))
    visitors := c.visitors ++ [p]
    totalVisits := sumVisits (c.visitors ++ [p])
    lastVisitTime := c.lastVisitTime }

/-- One iteration of the outer loop of the agglomerative `createClusters`:
scan the cluster list in order; the first cluster whose centre passes the
distance test absorbs the point (`break`); if none does, a new cluster seeded
by the point is pushed at the end. -/
def addPoint (nearP : ℚ → ℚ → ℚ → ℚ → Prop)
    [∀ a b x y, Decidable (nearP a b x y)] : List Cluster → Visitor → List Cluster
  | [], p => [seedCluster p]
  | c :: cs, p =>
    if clusterNearB nearP c p then updateCluster c p :: cs
    else c :: addPoint nearP cs p

/-- The agglomerative `createClusters`, parametrised by the merge predicate.
The `zoomLevel` parameter is received and, as in the source, never used. -/
def createClustersA (nearP : ℚ → ℚ → ℚ → ℚ → Prop)
    [∀ a b x y, Decidable (nearP a b x y)]
    (visitors : List Visitor) (zoomLevel : ℚ) : List Cluster :=
  match visitors with
  | [] => []
  | v :: rest => rest.foldl (addPoint nearP) [seedCluster v]

/-- The agglomerative `createClusters` of `VisitorMap.tsx` (lines 78-152), the
merge test instantiated at the exact haversine predicate `nearHavProp`. -/
noncomputable def createClusters (visitors : List Visitor) (zoomLevel : ℚ) : List Cluster :=
  createClustersA nearHavProp visitors zoomLevel

/-- `getGridSize`: the grid cell size as a step function of the zoom level. -/
def getGridSize (zoom : ℚ) : ℚ :=
  if zoom ≤ 1 then 20 else if zoom ≤ 2 then 10 else if zoom ≤ 4 then 5 else 2

/-- Insertion into the JavaScript object `grid`: distinct cells have distinct
string keys `"gridLat,gridLon"`, keys keep first-insertion order, and each
cell's visitor array grows at the end (`grid[key].push(...)`). -/
def insertGrid : List ((ℚ × ℚ) × List Visitor) → ℚ × ℚ → Visitor →
    List ((ℚ × ℚ) × List Visitor)
  | [], k, v => [(k, [v])]
  | (k1, vs) :: rest, k, v =>
    if k1 = k then (k1, vs ++ [v]) :: rest
    else (k1, vs) :: insertGrid rest k v

/-- One iteration of the cell-assignment loop of the grid `createClusters`: a
visitor whose parsed latitude or longitude is `NaN` is dropped, every other
visitor is filed under
`(Math.floor(lat/gridSize)*gridSize, Math.floor(lon/gridSize)*gridSize)`. -/
def gridStep (gridSize : ℚ) (acc : List ((ℚ × ℚ) × List Visitor)) (v : Visitor) :
    List ((ℚ × ℚ) × List Visitor) :=
  match v.latitude, v.longitude with
  | some la, some lo =>
    insertGrid acc (((⌊la / gridSize⌋ : ℤ) : ℚ) * gridSize,
      ((⌊lo / gridSize⌋ : ℤ) : ℚ) * gridSize) v
  | _, _ => acc

/-- The cell-assignment loop (`visitors.forEach(...)`) of the grid
`createClusters`, starting from the empty object `grid = {}`. -/
def gridCells (gridSize : ℚ) (visitors : List Visitor) :
    List ((ℚ × ℚ) × List Visitor) :=
  visitors.foldl (gridStep gridSize) []

/-- The grid-bucketing `createClusters` of `VisitorMap.tsx` (lines 594-669):
bucket visitors into zoom-sized cells, then turn each cell into a cluster,
attaching `lastVisitTime` exactly when the cell's own latest visit is within
5000 ms of the most recent visit over ALL input visitors.  The source's local
constants `gridSize`, `recentThreshold` and the per-cell `lastVisitTime` are
inlined. -/
def createClustersGrid (visitors : List Visitor) (zoom : ℚ) : List Cluster :=
  (gridCells (getGridSize zoom) visitors).map (fun cell =>
    { latitude := optMean (cell.2.map (·.latitude))
      longitude := optMean (cell.2.map (·.longitude))
      visitors := cell.2
      totalVisits := sumVisits cell.2
      lastVisitTime :=
        if mostRecentVisit visitors - 5000 ≤ maxLS (cell.2.map (·.last_seen))
        then some (maxLS (cell.2.map (·.last_seen))) else none })

/-- The cluster a member list determines: centre = unweighted mean of the
parsed member coordinates, `totalVisits` = sum of `visit_count || 1`.  Used to
state invariants of the agglomerative build. -/
def mkCluster (ms : List Visitor) : Cluster :=
  { latitude := optMean (ms.map (·.latitude))
    longitude := optMean (ms.map (·.longitude))
    visitors := ms
    totalVisits := sumVisits ms
    lastVisitTime := none }

/-- Specification-side definition, following the spec's words: one step of
first-fit clustering.  The point is merged into the FIRST cluster of the list
(in list order) whose current centroid passes the distance test — not the
nearest one — and when no cluster passes, a fresh cluster seeded by the point
is appended at the end of the list. -/
def specFirstFitStep (nearP : ℚ → ℚ → ℚ → ℚ → Prop)
    [∀ a b x y, Decidable (nearP a b x y)] (cs : List Cluster) (p : Visitor) :
    List Cluster :=
  match cs.findIdx? (fun c => clusterNearB nearP c p) with
  | some i => cs.modify (fun c => updateCluster c p) i
  | none => cs ++ [seedCluster p]

/-- C3's invariant: the centre is the unweighted mean of the members' parsed
coordinates and `totalVisits` is the sum of their `visit_count || 1`. -/
def clusterInvariant (c : Cluster) : Prop :=
  c.latitude = optMean (c.visitors.map (·.latitude)) ∧
    c.longitude = optMean (c.visitors.map (·.longitude)) ∧
    c.totalVisits = sumVisits c.visitors

/-- Re-clustering a cluster's own member list (with the same merge predicate)
reproduces exactly that one cluster. -/
def reclustersToSelf (nearP : ℚ → ℚ → ℚ → ℚ → Prop)
    [∀ a b x y, Decidable (nearP a b x y)] (c : Cluster) : Prop :=
  match c.visitors with
  | [] => False
  | v :: rest => rest.foldl (addPoint nearP) [seedCluster v] = [c]

/-! ### Concrete visitor records used in closed evaluations -/

/-- A visitor whose raw latitude does not parse (`parseFloat` gives `NaN`). -/
def visitorBad : Visitor :=
  { id := "bad-id", visitor_id := "bad-vid", latitude := none, longitude := some 10
    country := "Nowhere", city := "Nowhere", visit_count := some 1, last_seen := 0 }

/-- Equator visitor at latitude `0`, longitude `179.8` (= `899/5`). -/
def visitorEq1 : Visitor :=
  { id := "eq1", visitor_id := "eq1", latitude := some 0, longitude := some (899/5)
    country := "", city := "", visit_count := some 1, last_seen := 0 }

/-- Equator visitor at latitude `0`, longitude `-179.8` (= `-899/5`). -/
def visitorEq2 : Visitor :=
  { id := "eq2", visitor_id := "eq2", latitude := some 0, longitude := some (-(899/5))
    country := "", city := "", visit_count := some 1, last_seen := 0 }

/-- A visitor at the origin `(0, 0)`. -/
def visitorOrigin1 : Visitor :=
  { id := "o1", visitor_id := "o1", latitude := some 0, longitude := some 0
    country := "", city := "", visit_count := some 1, last_seen := 0 }

/-- A second visitor at the origin `(0, 0)`. -/
def visitorOrigin2 : Visitor :=
  { id := "o2", visitor_id := "o2", latitude := some 0, longitude := some 0
    country := "", city := "", visit_count := some 1, last_seen := 0 }

/-- A lone visitor with ordinary valid data. -/
def visitorSolo : Visitor :=
  { id := "solo", visitor_id := "solo", latitude := some 3, longitude := some 4
    country := "A", city := "B", visit_count := some 2, last_seen := 7 }

/-- A recent visitor at the origin cell (grid examples). -/
def gridV1 : Visitor :=
  { id := "g1", visitor_id := "g1", latitude := some 0, longitude := some 0
    country := "", city := "", visit_count := some 1, last_seen := 100000 }

/-- A stale visitor in a different grid cell. -/
def gridV2 : Visitor :=
  { id := "g2", visitor_id := "g2", latitude := some 50, longitude := some 50
    country := "", city := "", visit_count := some 3, last_seen := 1000 }

/-- The cluster the grid variant builds for `gridV1` in the run
`[gridV1, gridV2]`: recent, so the flag is attached. -/
def clusterG1 : Cluster :=
  { latitude := some 0, longitude := some 0, visitors := [gridV1]
    totalVisits := 1, lastVisitTime := some 100000 }

/-- The cluster the grid variant builds for `gridV2` in the run
`[gridV1, gridV2]`: stale, so no flag. -/
def clusterG2 : Cluster :=
  { latitude := some 50, longitude := some 50, visitors := [gridV2]
    totalVisits := 3, lastVisitTime := none }

/-- The cluster the grid variant builds for `gridV2` alone (then it is the most
recent visitor, so the flag is attached). -/
def clusterG2solo : Cluster :=
  { latitude := some 50, longitude := some 50, visitors := [gridV2]
    totalVisits := 3, lastVisitTime := some 1000 }

/-! ### Structural lemmas about the agglomerative build -/

section AggLemmas

variable {nearP : ℚ → ℚ → ℚ → ℚ → Prop} [∀ a b x y, Decidable (nearP a b x y)]

theorem seedCluster_eq_mk (p : Visitor) : seedCluster p = mkCluster [p] := by
  have hla : optMean [p.latitude] = p.latitude := by
    cases p.latitude <;> simp [optMean, optSum, optSumStep]
  have hlo : optMean [p.longitude] = p.longitude := by
    cases p.longitude <;> simp [optMean, optSum, optSumStep]
  simp [seedCluster, mkCluster, hla, hlo, sumVisits]

theorem updateCluster_mk (ms : List Visitor) (p : Visitor) :
    updateCluster (mkCluster ms) p = mkCluster (ms ++ [p]) := rfl

theorem clusterInvariant_mk (ms : List Visitor) : clusterInvariant (mkCluster ms) :=
  ⟨rfl, rfl, rfl⟩

theorem clusterInvariant_seed (p : Visitor) : clusterInvariant (seedCluster p) := by
  rw [seedCluster_eq_mk]
  exact clusterInvariant_mk [p]

theorem clusterInvariant_update (c : Cluster) (p : Visitor) :
    clusterInvariant (updateCluster c p) := ⟨rfl, rfl, rfl⟩

theorem addPoint_nil (p : Visitor) : addPoint nearP [] p = [seedCluster p] := rfl

theorem addPoint_cons_true {c : Cluster} {p : Visitor}
    (h : clusterNearB nearP c p = true) (cs : List Cluster) :
    addPoint nearP (c :: cs) p = updateCluster c p :: cs := by
  simp [addPoint, h]

theorem addPoint_cons_false {c : Cluster} {p : Visitor}
    (h : clusterNearB nearP c p = false) (cs : List Cluster) :
    addPoint nearP (c :: cs) p = c :: addPoint nearP cs p := by
  simp [addPoint, h]

theorem clusterNearB_iff (c : Cluster) (p : Visitor) :
    clusterNearB nearP c p = true ↔ clusterNearProp nearP c p := by
  unfold clusterNearB clusterNearProp
  cases c.latitude <;> cases c.longitude <;> cases p.latitude <;> cases p.longitude <;> simp

theorem length_le_addPoint (cs : List Cluster) (p : Visitor) :
    cs.length ≤ (addPoint nearP cs p).length := by
  induction cs with
  | nil => simp [addPoint]
  | cons c cs ih =>
    by_cases h : clusterNearB nearP c p = true
    · rw [addPoint_cons_true h]
      simp
    · rw [addPoint_cons_false (Bool.not_eq_true _ ▸ h : clusterNearB nearP c p = false)]
      simpa using ih

theorem length_le_foldl_addPoint (ps : List Visitor) (cs : List Cluster) :
    cs.length ≤ (ps.foldl (addPoint nearP) cs).length := by
  induction ps generalizing cs with
  | nil => simp
  | cons p ps ih => exact le_trans (length_le_addPoint cs p) (ih _)

theorem foldl_addPoint_ne_nil (ps : List Visitor) (cs : List Cluster) (h : cs ≠ []) :
    ps.foldl (addPoint nearP) cs ≠ [] := by
  have h1 : 0 < cs.length := List.length_pos.mpr h
  have h2 := @length_le_foldl_addPoint nearP _ ps cs
  exact List.length_pos.mp (lt_of_lt_of_le h1 h2)

theorem addPoint_inv (cs : List Cluster) (p : Visitor)
    (h : ∀ c ∈ cs, clusterInvariant c) :
    ∀ c ∈ addPoint nearP cs p, clusterInvariant c := by
  induction cs with
  | nil =>
    intro c hc
    rw [addPoint_nil] at hc
    rw [List.mem_singleton.mp hc]
    exact clusterInvariant_seed p
  | cons c0 cs ih =>
    intro c hc
    by_cases hb : clusterNearB nearP c0 p = true
    · rw [addPoint_cons_true hb] at hc
      rcases List.mem_cons.mp hc with h1 | h1
      · rw [h1]
        exact clusterInvariant_update c0 p
      · exact h c (List.mem_cons_of_mem c0 h1)
    · rw [addPoint_cons_false (Bool.not_eq_true _ ▸ hb : clusterNearB nearP c0 p = false)] at hc
      rcases List.mem_cons.mp hc with h1 | h1
      · rw [h1]
        exact h c0 (List.mem_cons_self c0 cs)
      · exact ih (fun c2 hc2 => h c2 (List.mem_cons_of_mem c0 hc2)) c h1

theorem foldl_addPoint_inv (ps : List Visitor) (cs : List Cluster)
    (h : ∀ c ∈ cs, clusterInvariant c) :
    ∀ c ∈ ps.foldl (addPoint nearP) cs, clusterInvariant c := by
  induction ps generalizing cs with
  | nil => simpa using h
  | cons p ps ih => exact ih (addPoint nearP cs p) (addPoint_inv cs p h)

theorem reclustersToSelf_seed (p : Visitor) : reclustersToSelf nearP (seedCluster p) := rfl

theorem reclustersToSelf_update {c : Cluster} {p : Visitor}
    (h : reclustersToSelf nearP c) (hn : clusterNearB nearP c p = true) :
    reclustersToSelf nearP (updateCluster c p) := by
  unfold reclustersToSelf at h ⊢
  have hvis : (updateCluster c p).visitors = c.visitors ++ [p] := rfl
  rw [hvis]
  cases hcv : c.visitors with
  | nil =>
    rw [hcv] at h
    exact h.elim
  | cons v rest =>
    rw [hcv] at h
    have h2 : List.foldl (addPoint nearP) [seedCluster v] rest = [c] := h
    rw [List.cons_append]
    show List.foldl (addPoint nearP) [seedCluster v] (rest ++ [p]) = [updateCluster c p]
    rw [List.foldl_append, h2, List.foldl_cons, List.foldl_nil]
    exact addPoint_cons_true hn []

theorem addPoint_recl (cs : List Cluster) (p : Visitor)
    (h : ∀ c ∈ cs, reclustersToSelf nearP c) :
    ∀ c2 ∈ addPoint nearP cs p, reclustersToSelf nearP c2 := by
  induction cs with
  | nil =>
    intro c2 hc2
    rw [addPoint_nil] at hc2
    rw [List.mem_singleton.mp hc2]
    exact reclustersToSelf_seed p
  | cons c0 cs ih =>
    intro c2 hc2
    by_cases hb : clusterNearB nearP c0 p = true
    · rw [addPoint_cons_true hb] at hc2
      rcases List.mem_cons.mp hc2 with h1 | h1
      · rw [h1]
        exact reclustersToSelf_update (h c0 (List.mem_cons_self c0 cs)) hb
      · exact h c2 (List.mem_cons_of_mem c0 h1)
    · rw [addPoint_cons_false (Bool.not_eq_true _ ▸ hb : clusterNearB nearP c0 p = false)] at hc2
      rcases List.mem_cons.mp hc2 with h1 | h1
      · rw [h1]
        exact h c0 (List.mem_cons_self c0 cs)
      · exact ih (fun c3 hc3 => h c3 (List.mem_cons_of_mem c0 hc3)) c2 h1

theorem foldl_addPoint_recl (ps : List Visitor) (cs : List Cluster)
    (h : ∀ c ∈ cs, reclustersToSelf nearP c) :
    ∀ c ∈ ps.foldl (addPoint nearP) cs, reclustersToSelf nearP c := by
  induction ps generalizing cs with
  | nil => simpa using h
  | cons p ps ih => exact ih (addPoint nearP cs p) (addPoint_recl cs p h)

theorem mem_createClustersA_recl {vs : List Visitor} {z : ℚ} {c : Cluster}
    (hc : c ∈ createClustersA nearP vs z) : reclustersToSelf nearP c := by
  cases vs with
  | nil => simp [createClustersA] at hc
  | cons v rest =>
    have hbase : ∀ c2 ∈ [seedCluster v], reclustersToSelf nearP c2 := by
      intro c2 hc2
      rw [List.mem_singleton.mp hc2]
      exact reclustersToSelf_seed v
    exact foldl_addPoint_recl rest [seedCluster v] hbase c hc

end AggLemmas

/-! ### Single-cluster runs and the first-fit characterisation -/

section AggLemmas2

variable {nearP : ℚ → ℚ → ℚ → ℚ → Prop} [∀ a b x y, Decidable (nearP a b x y)]

theorem foldl_single (v : Visitor) (c : Cluster) (pre : List Visitor) :
    ∀ suf : List Visitor,
    (pre ++ suf).foldl (addPoint nearP) [seedCluster v] = [c] →
    pre.foldl (addPoint nearP) [seedCluster v] = [mkCluster (v :: pre)] := by
  induction pre using List.reverseRecOn with
  | nil =>
    intro suf h
    simp [← seedCluster_eq_mk]
  | append_singleton pre0 q ih =>
    intro suf h
    rw [List.append_assoc] at h
    have h0 := ih ([q] ++ suf) h
    rw [List.foldl_append, h0, List.foldl_cons, List.foldl_nil]
    by_cases hb : clusterNearB nearP (mkCluster (v :: pre0)) q = true
    · rw [addPoint_cons_true hb [], updateCluster_mk, List.cons_append]
    · exfalso
      have hb2 : clusterNearB nearP (mkCluster (v :: pre0)) q = false :=
        Bool.not_eq_true _ ▸ hb
      have hfin : suf.foldl (addPoint nearP)
          (addPoint nearP [mkCluster (v :: pre0)] q) = [c] := by
        have h3 : ([q] ++ suf).foldl (addPoint nearP)
            (pre0.foldl (addPoint nearP) [seedCluster v]) = [c] := by
          rw [← List.foldl_append]
          exact h
        rw [h0, List.foldl_append, List.foldl_cons, List.foldl_nil] at h3
        exact h3
      rw [addPoint_cons_false hb2 [], addPoint_nil] at hfin
      have hlen := @length_le_foldl_addPoint nearP _ suf
        [mkCluster (v :: pre0), seedCluster q]
      rw [hfin] at hlen
      simp at hlen

theorem mem_createClustersA_near {vs : List Visitor} {z : ℚ} {c : Cluster}
    {pre suf : List Visitor} {m : Visitor}
    (hc : c ∈ createClustersA nearP vs z) (hvis : c.visitors = pre ++ m :: suf)
    (hpre : pre ≠ []) :
    clusterNearB nearP (mkCluster pre) m = true := by
  have hrecl := mem_createClustersA_recl hc
  unfold reclustersToSelf at hrecl
  cases hcv : c.visitors with
  | nil =>
    rw [hcv] at hrecl
    exact hrecl.elim
  | cons v0 rest0 =>
    rw [hcv] at hrecl
    have h0 : List.foldl (addPoint nearP) [seedCluster v0] rest0 = [c] := hrecl
    cases pre with
    | nil => exact absurd rfl hpre
    | cons p0 pre0 =>
      rw [hcv, List.cons_append] at hvis
      injection hvis with hv0 hrest
      subst hv0
      rw [hrest] at h0
      have hsingle1 := @foldl_single nearP _ v0 c pre0 (m :: suf) h0
      have h1 : ((pre0 ++ [m]) ++ suf).foldl (addPoint nearP) [seedCluster v0] = [c] := by
        rw [← List.append_cons]
        exact h0
      have hsingle2 := @foldl_single nearP _ v0 c (pre0 ++ [m]) suf h1
      rw [List.foldl_append, hsingle1, List.foldl_cons, List.foldl_nil] at hsingle2
      by_cases hb : clusterNearB nearP (mkCluster (v0 :: pre0)) m = true
      · exact hb
      · exfalso
        have hb2 : clusterNearB nearP (mkCluster (v0 :: pre0)) m = false :=
          Bool.not_eq_true _ ▸ hb
        rw [addPoint_cons_false hb2 [], addPoint_nil] at hsingle2
        exact absurd (congrArg List.length hsingle2) (by simp)

theorem findIdx?_cons_zero (pred : Cluster → Bool) (c : Cluster) (cs : List Cluster) :
    (c :: cs).findIdx? pred =
      if pred c then some 0 else (cs.findIdx? pred).map (· + 1) := by
  simp [List.findIdx?_cons]

theorem addPoint_eq_spec (cs : List Cluster) (p : Visitor) :
    addPoint nearP cs p = specFirstFitStep nearP cs p := by
  induction cs with
  | nil => rfl
  | cons c cs ih =>
    by_cases hb : clusterNearB nearP c p = true
    · rw [addPoint_cons_true hb]
      unfold specFirstFitStep
      rw [findIdx?_cons_zero]
      simp only [hb, if_true]
      rfl
    · have hb2 : clusterNearB nearP c p = false := Bool.not_eq_true _ ▸ hb
      rw [addPoint_cons_false hb2, ih]
      unfold specFirstFitStep
      rw [findIdx?_cons_zero]
      simp only [hb2, Bool.false_eq_true, if_false]
      cases hfind : cs.findIdx? (fun c2 => clusterNearB nearP c2 p) with
      | none => rfl
      | some i => rfl

end AggLemmas2

/-! ### Sum and mean bounds, and the grid-cell invariant -/

theorem foldl_optSumStep_none (l : List (Option ℚ)) : l.foldl optSumStep none = none := by
  induction l with
  | nil => rfl
  | cons o l ih => cases o <;> simpa [optSumStep] using ih

theorem foldl_optSumStep_some (l : List (Option ℚ)) :
    ∀ s : ℚ, l.foldl optSumStep (some s) = (optSum l).map (fun t => s + t) := by
  induction l with
  | nil =>
    intro s
    simp [optSum]
  | cons o l ih =>
    intro s
    cases o with
    | none =>
      simp only [List.foldl_cons]
      rw [show optSumStep (some s) none = none from rfl, foldl_optSumStep_none]
      have h1 : optSum (none :: l) = none := by
        unfold optSum
        simp only [List.foldl_cons]
        rw [show optSumStep (some 0) none = none from rfl]
        exact foldl_optSumStep_none l
      rw [h1]
      rfl
    | some a =>
      simp only [List.foldl_cons]
      rw [show optSumStep (some s) (some a) = some (s + a) from rfl, ih (s + a)]
      have h2 : optSum (some a :: l) = (optSum l).map (fun t => 0 + a + t) := by
        unfold optSum
        simp only [List.foldl_cons]
        rw [show optSumStep (some 0) (some a) = some (0 + a) from rfl]
        exact ih (0 + a)
      rw [h2]
      cases hs : optSum l with
      | none => rfl
      | some t =>
        show some (s + a + t) = some (s + (0 + a + t))
        congr 1
        ring

theorem optSum_bounds (lo hi : ℚ) (l : List (Option ℚ)) (hne : l ≠ [])
    (hB : ∀ o ∈ l, ∃ q, o = some q ∧ lo ≤ q ∧ q < hi) :
    ∃ s, optSum l = some s ∧ (l.length : ℚ) * lo ≤ s ∧ s < (l.length : ℚ) * hi := by
  induction l with
  | nil => exact absurd rfl hne
  | cons o l ih =>
    obtain ⟨q, hq, hql, hqh⟩ := hB o (List.mem_cons_self o l)
    subst hq
    cases l with
    | nil =>
      refine ⟨0 + q, rfl, ?_, ?_⟩
      · simpa using hql
      · simpa using hqh
    | cons o2 l2 =>
      obtain ⟨s, hs, hsl, hsh⟩ :=
        ih (by simp) (fun o ho => hB o (List.mem_cons_of_mem _ ho))
      refine ⟨0 + q + s, ?_, ?_, ?_⟩
      · show (some q :: o2 :: l2).foldl optSumStep (some 0) = some (0 + q + s)
        rw [List.foldl_cons, show optSumStep (some 0) (some q) = some (0 + q) from rfl,
          foldl_optSumStep_some, hs]
        rfl
      · have hlen : (((some q : Option ℚ) :: o2 :: l2).length : ℚ)
            = ((o2 :: l2).length : ℚ) + 1 := by
          push_cast [List.length_cons]
          ring
        rw [hlen]
        nlinarith [hsl, hql]
      · have hlen : (((some q : Option ℚ) :: o2 :: l2).length : ℚ)
            = ((o2 :: l2).length : ℚ) + 1 := by
          push_cast [List.length_cons]
          ring
        rw [hlen]
        nlinarith [hsh, hqh]

theorem optMean_bounds (lo hi : ℚ) (l : List (Option ℚ)) (hne : l ≠ [])
    (hB : ∀ o ∈ l, ∃ q, o = some q ∧ lo ≤ q ∧ q < hi) :
    ∃ m, optMean l = some m ∧ lo ≤ m ∧ m < hi := by
  obtain ⟨s, hs, hsl, hsh⟩ := optSum_bounds lo hi l hne hB
  have hn : (0:ℚ) < (l.length : ℚ) := by
    exact_mod_cast List.length_pos.mpr hne
  refine ⟨s / (l.length : ℚ), by simp [optMean, hs], ?_, ?_⟩
  · rw [le_div_iff₀ hn]
    nlinarith [hsl]
  · rw [div_lt_iff₀ hn]
    nlinarith [hsh]

theorem getGridSize_pos (z : ℚ) : 0 < getGridSize z := by
  unfold getGridSize
  split_ifs <;> norm_num

theorem insertGrid_inv (P : ℚ × ℚ → Visitor → Prop) (k : ℚ × ℚ) (v : Visitor)
    (hv : P k v) (cells : List ((ℚ × ℚ) × List Visitor))
    (hA : ∀ cell ∈ cells, cell.2 ≠ [] ∧ ∀ m ∈ cell.2, P cell.1 m) :
    ∀ cell ∈ insertGrid cells k v, cell.2 ≠ [] ∧ ∀ m ∈ cell.2, P cell.1 m := by
  induction cells with
  | nil =>
    intro cell hcell
    rw [show insertGrid [] k v = [(k, [v])] from rfl] at hcell
    rw [List.mem_singleton.mp hcell]
    refine ⟨by simp, ?_⟩
    intro m hm
    rw [List.mem_singleton.mp hm]
    exact hv
  | cons c0 cells ih =>
    obtain ⟨k1, vs⟩ := c0
    intro cell hcell
    rw [show insertGrid ((k1, vs) :: cells) k v
        = if k1 = k then (k1, vs ++ [v]) :: cells
          else (k1, vs) :: insertGrid cells k v from rfl] at hcell
    by_cases hk : k1 = k
    · rw [if_pos hk] at hcell
      rcases List.mem_cons.mp hcell with h1 | h1
      · rw [h1]
        refine ⟨by simp, ?_⟩
        intro m hm
        rcases List.mem_append.mp hm with h2 | h2
        · exact (hA (k1, vs) (List.mem_cons_self _ _)).2 m h2
        · rw [List.mem_singleton.mp h2, hk]
          exact hv
      · exact hA cell (List.mem_cons_of_mem _ h1)
    · rw [if_neg hk] at hcell
      rcases List.mem_cons.mp hcell with h1 | h1
      · rw [h1]
        exact hA (k1, vs) (List.mem_cons_self _ _)
      · exact ih (fun c2 hc2 => hA c2 (List.mem_cons_of_mem _ hc2)) cell h1

theorem gridCells_inv (g : ℚ) (vs : List Visitor) :
    ∀ cell ∈ gridCells g vs, cell.2 ≠ [] ∧ ∀ m ∈ cell.2,
      ∃ la lo, m.latitude = some la ∧ m.longitude = some lo ∧
        cell.1 = (((⌊la / g⌋ : ℤ) : ℚ) * g, ((⌊lo / g⌋ : ℤ) : ℚ) * g) := by
  have main : ∀ (ws : List Visitor) (acc : List ((ℚ × ℚ) × List Visitor)),
      (∀ cell ∈ acc, cell.2 ≠ [] ∧ ∀ m ∈ cell.2,
        ∃ la lo, m.latitude = some la ∧ m.longitude = some lo ∧
          cell.1 = (((⌊la / g⌋ : ℤ) : ℚ) * g, ((⌊lo / g⌋ : ℤ) : ℚ) * g)) →
      ∀ cell ∈ ws.foldl (gridStep g) acc, cell.2 ≠ [] ∧ ∀ m ∈ cell.2,
        ∃ la lo, m.latitude = some la ∧ m.longitude = some lo ∧
          cell.1 = (((⌊la / g⌋ : ℤ) : ℚ) * g, ((⌊lo / g⌋ : ℤ) : ℚ) * g) := by
    intro ws
    induction ws with
    | nil =>
      intro acc h
      simpa using h
    | cons w ws ih =>
      intro acc hacc
      rw [List.foldl_cons]
      apply ih
      cases hla : w.latitude with
      | none =>
        have hstep : gridStep g acc w = acc := by
          unfold gridStep
          rw [hla]
        rw [hstep]
        exact hacc
      | some la =>
        cases hlo : w.longitude with
        | none =>
          have hstep : gridStep g acc w = acc := by
            unfold gridStep
            rw [hla, hlo]
          rw [hstep]
          exact hacc
        | some lo =>
          have hstep : gridStep g acc w = insertGrid acc
              (((⌊la / g⌋ : ℤ) : ℚ) * g, ((⌊lo / g⌋ : ℤ) : ℚ) * g) w := by
            unfold gridStep
            rw [hla, hlo]
          rw [hstep]
          exact insertGrid_inv
            (fun k m => ∃ la2 lo2, m.latitude = some la2 ∧ m.longitude = some lo2 ∧
              k = (((⌊la2 / g⌋ : ℤ) : ℚ) * g, ((⌊lo2 / g⌋ : ℤ) : ℚ) * g))
            _ w ⟨la, lo, hla, hlo, rfl⟩ acc hacc
  exact main vs [] (by simp)

/-! ### Exact values of `calculateDistance` at the points used in evaluations -/

theorem havA_symm (la1 lo1 la2 lo2 : ℝ) :
    havA la2 lo2 la1 lo1 = havA la1 lo1 la2 lo2 := by
  unfold havA
  rw [show (la1 - la2) * Real.pi / 180 / 2 = -((la2 - la1) * Real.pi / 180 / 2) by ring,
    show (lo1 - lo2) * Real.pi / 180 / 2 = -((lo2 - lo1) * Real.pi / 180 / 2) by ring]
  simp only [Real.sin_neg]
  ring

theorem calculateDistance_equator (θ lo1 lo2 : ℝ) (h1 : 0 ≤ θ) (h2 : θ < Real.pi / 2)
    (hsin : Real.sin ((lo2 - lo1) * Real.pi / 180 / 2) *
        Real.sin ((lo2 - lo1) * Real.pi / 180 / 2) = Real.sin θ * Real.sin θ) :
    calculateDistance 0 lo1 0 lo2 = 6371 * (2 * θ) := by
  have hθpi : θ ≤ Real.pi := by linarith [Real.pi_pos]
  have hsin_nonneg : 0 ≤ Real.sin θ := Real.sin_nonneg_of_nonneg_of_le_pi h1 hθpi
  have hcos_pos : 0 < Real.cos θ :=
    Real.cos_pos_of_mem_Ioo ⟨by linarith [Real.pi_pos], h2⟩
  have hA : havA 0 lo1 0 lo2 = Real.sin θ * Real.sin θ := by
    unfold havA
    rw [show ((0:ℝ) - 0) * Real.pi / 180 / 2 = 0 by ring, Real.sin_zero,
      show (0:ℝ) * Real.pi / 180 = 0 by ring, Real.cos_zero, hsin]
    ring
  have hsub : 1 - Real.sin θ * Real.sin θ = Real.cos θ * Real.cos θ := by
    have h := Real.sin_sq_add_cos_sq θ
    rw [pow_two, pow_two] at h
    linarith
  unfold calculateDistance
  rw [hA, hsub, Real.sqrt_mul_self hsin_nonneg, Real.sqrt_mul_self (le_of_lt hcos_pos)]
  rw [show atan2 (Real.sin θ) (Real.cos θ) = Real.arctan (Real.sin θ / Real.cos θ) from
    if_pos hcos_pos]
  rw [← Real.tan_eq_sin_div_cos, Real.arctan_tan (by linarith [Real.pi_pos]) h2]

theorem calculateDistance_eq_merge :
    calculateDistance 0 (899/5) 0 (-(899/5)) = 6371 * (2 * (Real.pi / 900)) := by
  apply calculateDistance_equator
  · positivity
  · rw [div_lt_div_iff₀ (by norm_num) (by norm_num)]
    nlinarith [Real.pi_pos]
  · rw [show ((-(899/5:ℝ)) - 899/5) * Real.pi / 180 / 2
        = -(Real.pi - Real.pi / 900) by ring, Real.sin_neg, Real.sin_pi_sub]
    ring

theorem calculateDistance_eq_far1 :
    calculateDistance 0 0 0 (899/5) = 6371 * (2 * (Real.pi / 2 - Real.pi / 1800)) := by
  apply calculateDistance_equator
  · have := Real.pi_pos
    nlinarith
  · have := Real.pi_pos
    nlinarith
  · rw [show ((899/5:ℝ) - 0) * Real.pi / 180 / 2 = Real.pi / 2 - Real.pi / 1800 by ring]

theorem calculateDistance_eq_far2 :
    calculateDistance 0 0 0 (-(899/5)) = 6371 * (2 * (Real.pi / 2 - Real.pi / 1800)) := by
  apply calculateDistance_equator
  · have := Real.pi_pos
    nlinarith
  · have := Real.pi_pos
    nlinarith
  · rw [show ((-(899/5:ℝ)) - 0) * Real.pi / 180 / 2
      = -(Real.pi / 2 - Real.pi / 1800) by ring, Real.sin_neg]
    ring

theorem calculateDistance_self_origin : calculateDistance 0 0 0 0 = 0 := by
  have h := calculateDistance_equator 0 0 0 (le_refl 0)
    (by linarith [Real.pi_pos])
    (by rw [show ((0:ℝ) - 0) * Real.pi / 180 / 2 = 0 by ring])
  rw [h]
  norm_num

theorem nearHav_merge : nearHavProp 0 (899/5) 0 (-(899/5)) := by
  unfold nearHavProp
  have hc0 : ((0:ℚ) : ℝ) = 0 := by norm_num
  have hc1 : (((899/5 : ℚ)) : ℝ) = (899/5 : ℝ) := by norm_num
  have hc2 : (((-(899/5) : ℚ)) : ℝ) = (-(899/5) : ℝ) := by push_cast; ring
  rw [hc0, hc1, hc2, calculateDistance_eq_merge]
  nlinarith [Real.pi_lt_d2]

theorem nearHav_origin : nearHavProp 0 0 0 0 := by
  unfold nearHavProp
  have hc0 : ((0:ℚ) : ℝ) = 0 := by norm_num
  rw [hc0, calculateDistance_self_origin]
  norm_num

theorem far_gt_50 : (50:ℝ) < 6371 * (2 * (Real.pi / 2 - Real.pi / 1800)) := by
  nlinarith [Real.pi_gt_three]

/-! ### Closed evaluations of the agglomerative run at the haversine predicate -/

theorem clusterNearB_eq_pair :
    clusterNearB nearHavProp (seedCluster visitorEq1) visitorEq2 = true := by
  show decide (nearHavProp 0 (899/5) 0 (-(899/5))) = true
  rw [decide_eq_true_eq]
  exact nearHav_merge

theorem createClusters_eq_pair :
    createClusters [visitorEq1, visitorEq2] 1
      = [updateCluster (seedCluster visitorEq1) visitorEq2] := by
  show List.foldl (addPoint nearHavProp) [seedCluster visitorEq1] [visitorEq2]
    = [updateCluster (seedCluster visitorEq1) visitorEq2]
  rw [List.foldl_cons, List.foldl_nil, addPoint_cons_true clusterNearB_eq_pair []]

theorem clusterNearB_origin_pair :
    clusterNearB nearHavProp (seedCluster visitorOrigin1) visitorOrigin2 = true := by
  show decide (nearHavProp 0 0 0 0) = true
  rw [decide_eq_true_eq]
  exact nearHav_origin

theorem createClusters_origin_pair :
    createClusters [visitorOrigin1, visitorOrigin2] 1
      = [updateCluster (seedCluster visitorOrigin1) visitorOrigin2] := by
  show List.foldl (addPoint nearHavProp) [seedCluster visitorOrigin1] [visitorOrigin2]
    = [updateCluster (seedCluster visitorOrigin1) visitorOrigin2]
  rw [List.foldl_cons, List.foldl_nil, addPoint_cons_true clusterNearB_origin_pair []]

theorem getGridSize_one : getGridSize 1 = 20 := by
  simp [getGridSize]

theorem gridKey_zero : (((⌊(0:ℚ) / 20⌋ : ℤ) : ℚ) * 20) = 0 := by
  norm_num

theorem gridKey_fifty : (((⌊(50:ℚ) / 20⌋ : ℤ) : ℚ) * 20) = 40 := by
  norm_num

theorem gridCells_pair_eval :
    gridCells (getGridSize 1) [gridV1, gridV2]
      = [(((0:ℚ), (0:ℚ)), [gridV1]), (((40:ℚ), (40:ℚ)), [gridV2])] := by
  rw [getGridSize_one]
  show gridStep 20 (gridStep 20 [] gridV1) gridV2 = _
  have h1 : gridStep 20 [] gridV1 = [(((0:ℚ), (0:ℚ)), [gridV1])] := by
    rw [show gridStep 20 [] gridV1
        = insertGrid [] ((((⌊(0:ℚ) / 20⌋ : ℤ) : ℚ) * 20),
            (((⌊(0:ℚ) / 20⌋ : ℤ) : ℚ) * 20)) gridV1 from rfl, gridKey_zero]
    rfl
  rw [h1]
  rw [show gridStep 20 [(((0:ℚ), (0:ℚ)), [gridV1])] gridV2
      = insertGrid [(((0:ℚ), (0:ℚ)), [gridV1])] ((((⌊(50:ℚ) / 20⌋ : ℤ) : ℚ) * 20),
          (((⌊(50:ℚ) / 20⌋ : ℤ) : ℚ) * 20)) gridV2 from rfl, gridKey_fifty]
  rw [show insertGrid [(((0:ℚ), (0:ℚ)), [gridV1])] ((40:ℚ), (40:ℚ)) gridV2
      = if ((0:ℚ), (0:ℚ)) = ((40:ℚ), (40:ℚ))
        then (((0:ℚ), (0:ℚ)), [gridV1] ++ [gridV2]) :: []
        else (((0:ℚ), (0:ℚ)), [gridV1]) :: insertGrid [] ((40:ℚ), (40:ℚ)) gridV2
      from rfl]
  rw [if_neg (by norm_num [Prod.ext_iff])]
  rfl

theorem gridCells_solo_eval :
    gridCells (getGridSize 1) [gridV2] = [(((40:ℚ), (40:ℚ)), [gridV2])] := by
  rw [getGridSize_one]
  show gridStep 20 [] gridV2 = _
  rw [show gridStep 20 [] gridV2
      = insertGrid [] ((((⌊(50:ℚ) / 20⌋ : ℤ) : ℚ) * 20),
          (((⌊(50:ℚ) / 20⌋ : ℤ) : ℚ) * 20)) gridV2 from rfl, gridKey_fifty]
  rfl

theorem optMean_single_zero : optMean ([gridV1].map (fun m => m.latitude)) = some 0 := by
  norm_num [optMean, optSum, optSumStep, gridV1]

theorem optMean_single_fifty : optMean ([gridV2].map (fun m => m.latitude)) = some 50 := by
  norm_num [optMean, optSum, optSumStep, gridV2]

theorem createClustersGrid_pair_eval :
    createClustersGrid [gridV1, gridV2] 1 = [clusterG1, clusterG2] := by
  unfold createClustersGrid
  rw [gridCells_pair_eval, List.map_cons, List.map_cons, List.map_nil]
  have hm : mostRecentVisit [gridV1, gridV2] = 100000 := rfl
  have hml1 : maxLS ([gridV1].map (fun v => v.last_seen)) = 100000 := rfl
  have hml2 : maxLS ([gridV2].map (fun v => v.last_seen)) = 1000 := rfl
  have hs1 : sumVisits [gridV1] = 1 := rfl
  have hs2 : sumVisits [gridV2] = 3 := rfl
  show [(⟨optMean ([gridV1].map (fun m => m.latitude)),
      optMean ([gridV1].map (fun m => m.longitude)), [gridV1], sumVisits [gridV1],
      if mostRecentVisit [gridV1, gridV2] - 5000
          ≤ maxLS ([gridV1].map (fun v => v.last_seen))
        then some (maxLS ([gridV1].map (fun v => v.last_seen))) else none⟩ : Cluster),
    (⟨optMean ([gridV2].map (fun m => m.latitude)),
      optMean ([gridV2].map (fun m => m.longitude)), [gridV2], sumVisits [gridV2],
      if mostRecentVisit [gridV1, gridV2] - 5000
          ≤ maxLS ([gridV2].map (fun v => v.last_seen))
        then some (maxLS ([gridV2].map (fun v => v.last_seen))) else none⟩ : Cluster)]
      = [clusterG1, clusterG2]
  rw [hm, hml1, hml2, hs1, hs2, if_pos (by norm_num), if_neg (by norm_num)]
  unfold clusterG1 clusterG2
  norm_num [optMean, optSum, optSumStep, gridV1, gridV2, Cluster.mk.injEq]

theorem createClustersGrid_solo_eval :
    createClustersGrid [gridV2] 1 = [clusterG2solo] := by
  unfold createClustersGrid
  rw [gridCells_solo_eval, List.map_cons, List.map_nil]
  have hm : mostRecentVisit [gridV2] = 1000 := rfl
  have hml2 : maxLS ([gridV2].map (fun v => v.last_seen)) = 1000 := rfl
  have hs2 : sumVisits [gridV2] = 3 := rfl
  show [(⟨optMean ([gridV2].map (fun m => m.latitude)),
      optMean ([gridV2].map (fun m => m.longitude)), [gridV2], sumVisits [gridV2],
      if mostRecentVisit [gridV2] - 5000
          ≤ maxLS ([gridV2].map (fun v => v.last_seen))
        then some (maxLS ([gridV2].map (fun v => v.last_seen))) else none⟩ : Cluster)]
      = [clusterG2solo]
  rw [hm, hml2, hs2, if_pos (by norm_num)]
  unfold clusterG2solo
  norm_num [optMean, optSum, optSumStep, gridV2, Cluster.mk.injEq]

/-! ### Claims -/

/-- C1: the claim states that the union of the member lists of the clusters
returned by `createClusters` is exactly the subset of input visitors whose
coordinates parse to non-`NaN` numbers, every unparseable-coordinate visitor
appearing in no cluster.  The grid variant does drop such visitors, but the
agglomerative `createClusters` has no `isNaN` guard: evaluated at a visitor
whose latitude does not parse, it returns one cluster containing that visitor
(with a `NaN` centre), while the grid variant returns no cluster for the same
input. -/
theorem C1_invalid_visitor_is_clustered :
    (createClusters [visitorBad] 1).map (fun c => c.visitors) = [[visitorBad]] ∧
    visitorBad.latitude = none ∧
    createClustersGrid [visitorBad] 1 = [] :=
  ⟨rfl, rfl, rfl⟩

/-- C2: in the agglomerative `createClusters` every visitor after the first is
processed by the first-fit step: it is merged into the FIRST cluster in
cluster-list order whose current centroid passes the 50 km haversine test (not
the nearest such cluster); when no cluster passes, a new cluster seeded by the
visitor is appended at the end, so the returned list is in cluster-creation
order.  `specFirstFitStep` is the specification-side step written with
`findIdx?` (first matching index) and an append at the end. -/
theorem C2_first_fit_refinement (z : ℚ) (v : Visitor) (rest : List Visitor) :
    createClusters (v :: rest) z
      = rest.foldl (specFirstFitStep nearHavProp) [seedCluster v] := by
  have hf : (addPoint nearHavProp : List Cluster → Visitor → List Cluster)
      = specFirstFitStep nearHavProp :=
    funext fun cs => funext fun p => addPoint_eq_spec cs p
  show rest.foldl (addPoint nearHavProp) [seedCluster v] = _
  rw [hf]

/-- C3: every cluster of the agglomerative `createClusters` — and every cluster
of every intermediate state of the build, i.e. after every member insertion —
has its centre equal to the unweighted arithmetic mean of its members' parsed
coordinates (not weighted by visit count), and its `totalVisits` equal to the
sum over its members of `visit_count` with `1` substituted when that field is
absent or zero. -/
theorem C3_centroid_and_weight_invariant :
    (∀ (vs : List Visitor) (z : ℚ), ∀ c ∈ createClusters vs z, clusterInvariant c) ∧
    (∀ (v : Visitor) (pre : List Visitor),
      ∀ c ∈ pre.foldl (addPoint nearHavProp) [seedCluster v], clusterInvariant c) := by
  have hbase : ∀ v : Visitor, ∀ c2 ∈ [seedCluster v], clusterInvariant c2 := by
    intro v c2 hc2
    rw [List.mem_singleton.mp hc2]
    exact clusterInvariant_seed v
  constructor
  · intro vs z c hc
    cases vs with
    | nil => simp [createClusters, createClustersA] at hc
    | cons v rest => exact foldl_addPoint_inv rest [seedCluster v] (hbase v) c hc
  · intro v pre c hc
    exact foldl_addPoint_inv pre [seedCluster v] (hbase v) c hc

/-- C3 witness: the invariant evaluated on the cluster of a singleton run. -/
theorem C3_centroid_and_weight_invariant_witness :
    clusterInvariant (seedCluster visitorSolo) :=
  C3_centroid_and_weight_invariant.1 [visitorSolo] 1 (seedCluster visitorSolo)
    (List.mem_singleton.mpr rfl)

/-- C4: in the grid `createClusters` (the variant that drops invalid-coordinate
visitors and implements the recency flag), a returned cluster carries
`lastVisitTime` exactly when the maximum `last_seen` over its own members is at
least `mostRecentVisit - 5000` ms, where `mostRecentVisit` is the maximum
`last_seen` over ALL input visitors (including visitors dropped for invalid
coordinates), and in that case the carried value is that member maximum. -/
theorem C4_recency_flag_iff (vs : List Visitor) (z : ℚ) (c : Cluster)
    (hc : c ∈ createClustersGrid vs z) :
    c.lastVisitTime
      = if mostRecentVisit vs - 5000 ≤ maxLS (c.visitors.map (·.last_seen))
        then some (maxLS (c.visitors.map (·.last_seen))) else none := by
  unfold createClustersGrid at hc
  rw [List.mem_map] at hc
  obtain ⟨cell, hcell, hceq⟩ := hc
  subst hceq
  rfl

/-- C4 witness: two far-apart visitors, one recent (flag attached, value = the
member maximum), evaluated through the theorem. -/
theorem C4_recency_flag_iff_witness :
    clusterG1.lastVisitTime
      = if mostRecentVisit [gridV1, gridV2] - 5000
          ≤ maxLS (clusterG1.visitors.map (·.last_seen))
        then some (maxLS (clusterG1.visitors.map (·.last_seen))) else none :=
  C4_recency_flag_iff [gridV1, gridV2] 1 clusterG1
    (by rw [createClustersGrid_pair_eval]; exact List.mem_cons_self _ _)

/-- C5: totality and the empty case.  Both `createClusters` variants are total
Lean functions of any input shape (coordinates may be `NaN`, `visit_count` may
be absent); an empty visitor list yields an empty cluster list in both
variants, and (agglomerative variant) a non-empty input never yields `[]`. -/
theorem C5_total_empty_to_empty :
    (∀ z : ℚ, createClusters [] z = []) ∧
    (∀ z : ℚ, createClustersGrid [] z = []) ∧
    (∀ (v : Visitor) (vs : List Visitor) (z : ℚ), createClusters (v :: vs) z ≠ []) := by
  refine ⟨fun z => rfl, fun z => rfl, fun v vs z => ?_⟩
  show vs.foldl (addPoint nearHavProp) [seedCluster v] ≠ []
  exact foldl_addPoint_ne_nil vs [seedCluster v] (by simp)

/-- C5 witness: the empty and singleton runs. -/
theorem C5_total_empty_to_empty_witness :
    createClusters [] 0 = [] ∧ createClustersGrid [] 0 = [] ∧
    createClusters [visitorSolo] 0 ≠ [] :=
  ⟨C5_total_empty_to_empty.1 0, C5_total_empty_to_empty.2.1 0,
    C5_total_empty_to_empty.2.2 visitorSolo [] 0⟩

/-- C6: the agglomerative `createClusters` never reads its zoom parameter, so
for any two finite non-negative zoom values the outputs are identical. -/
theorem C6_zoom_independent (vs : List Visitor) (z1 z2 : ℚ)
    (h1 : 0 ≤ z1) (h2 : 0 ≤ z2) :
    createClusters vs z1 = createClusters vs z2 := rfl

/-- C6 witness. -/
theorem C6_zoom_independent_witness :
    createClusters [visitorSolo] 0 = createClusters [visitorSolo] 1 :=
  C6_zoom_independent [visitorSolo] 0 1 (le_refl 0) (by norm_num)

/-- C7 counterexample: the two equator visitors at longitudes `179.8` and
`-179.8` are about 44.5 km apart by haversine (which wraps around the
antimeridian), so the agglomerative `createClusters` merges them into one
cluster; its centroid is the plain arithmetic mean `(0, 0)`, which is about
19 970 km — more than 50 km — from BOTH members' coordinates, so no member is
within the 50 km radius of the centroid. -/
theorem C7_centroid_far_counterexample :
    (createClusters [visitorEq1, visitorEq2] 1).map
        (fun c => (c.latitude, c.longitude, c.visitors))
      = [(some 0, some 0, [visitorEq1, visitorEq2])] ∧
    visitorEq1.latitude = some 0 ∧ visitorEq1.longitude = some (899/5) ∧
    visitorEq2.latitude = some 0 ∧ visitorEq2.longitude = some (-(899/5)) ∧
    50 < calculateDistance ((0:ℚ) : ℝ) ((0:ℚ) : ℝ) ((0:ℚ) : ℝ) (((899/5 : ℚ)) : ℝ) ∧
    50 < calculateDistance ((0:ℚ) : ℝ) ((0:ℚ) : ℝ) ((0:ℚ) : ℝ) (((-(899/5) : ℚ)) : ℝ) := by
  refine ⟨?_, rfl, rfl, rfl, rfl, ?_, ?_⟩
  · rw [createClusters_eq_pair, List.map_cons, List.map_nil]
    norm_num [updateCluster, seedCluster, visitorEq1, visitorEq2, optMean, optSum,
      optSumStep, Prod.ext_iff]
  · have hc0 : ((0:ℚ) : ℝ) = 0 := by norm_num
    have hc1 : (((899/5 : ℚ)) : ℝ) = (899/5 : ℝ) := by norm_num
    rw [hc0, hc1, calculateDistance_eq_far1]
    exact far_gt_50
  · have hc0 : ((0:ℚ) : ℝ) = 0 := by norm_num
    have hc2 : (((-(899/5) : ℚ)) : ℝ) = (-(899/5) : ℝ) := by push_cast; ring
    rw [hc0, hc2, calculateDistance_eq_far2]
    exact far_gt_50

/-- C7 (amended): what does hold: in every cluster returned by the
agglomerative `createClusters`, every member other than the seeding first
member passed the 50 km haversine test against the centroid the cluster had at
the moment of that member's insertion — the unweighted mean of the previously
inserted members' coordinates (`mkCluster pre`).  The original claim, with the
FINAL centroid in place of the insertion-time centroid, is refuted by the
counterexample. -/
theorem C7_member_near_centroid_at_insertion (vs : List Visitor) (z : ℚ)
    (c : Cluster) (pre suf : List Visitor) (m : Visitor)
    (hc : c ∈ createClusters vs z) (hvis : c.visitors = pre ++ m :: suf)
    (hpre : pre ≠ []) :
    clusterNearProp nearHavProp (mkCluster pre) m :=
  (clusterNearB_iff (mkCluster pre) m).mp (mem_createClustersA_near hc hvis hpre)

/-- C7 witness for the amended statement: the second origin visitor joined the
cluster seeded by the first and was within 50 km of its centroid. -/
theorem C7_member_near_centroid_at_insertion_witness :
    clusterNearProp nearHavProp (mkCluster [visitorOrigin1]) visitorOrigin2 :=
  C7_member_near_centroid_at_insertion [visitorOrigin1, visitorOrigin2] 1
    (updateCluster (seedCluster visitorOrigin1) visitorOrigin2) [visitorOrigin1] []
    visitorOrigin2
    (by rw [createClusters_origin_pair]; exact List.mem_singleton.mpr rfl)
    rfl (by simp)

/-- C8: re-clustering any returned cluster's member list, with the same 50 km
haversine merge predicate and any zoom value, yields exactly one cluster. -/
theorem C8_recluster_single (vs : List Visitor) (z : ℚ) (c : Cluster)
    (hc : c ∈ createClusters vs z) (z2 : ℚ) :
    (createClusters c.visitors z2).length = 1 := by
  have hrecl := @mem_createClustersA_recl nearHavProp _ vs z c hc
  unfold reclustersToSelf at hrecl
  cases hcv : c.visitors with
  | nil =>
    rw [hcv] at hrecl
    exact hrecl.elim
  | cons v rest =>
    rw [hcv] at hrecl
    have h0 : List.foldl (addPoint nearHavProp) [seedCluster v] rest = [c] := hrecl
    show (List.foldl (addPoint nearHavProp) [seedCluster v] rest).length = 1
    rw [h0]
    rfl

/-- C8 witness: a singleton run re-clustered at a different zoom. -/
theorem C8_recluster_single_witness :
    (createClusters (seedCluster visitorSolo).visitors 2).length = 1 :=
  C8_recluster_single [visitorSolo] 1 (seedCluster visitorSolo)
    (List.mem_singleton.mpr rfl) 2

/-- C9: in the grid variant all members of a returned cluster lie in the same
grid cell — they share `floor(lat/gridSize)*gridSize` and
`floor(lon/gridSize)*gridSize` for `gridSize = getGridSize zoom` — and the
cluster's centroid (the mean of those coordinates) lies within the cell's
half-open bounds `[gridLat, gridLat+gridSize) x [gridLon, gridLon+gridSize)`. -/
theorem C9_grid_cell_invariant (vs : List Visitor) (z : ℚ) (c : Cluster)
    (hc : c ∈ createClustersGrid vs z) :
    ∃ gla glo : ℚ,
      (∀ m ∈ c.visitors, ∃ mla mlo : ℚ,
        m.latitude = some mla ∧ m.longitude = some mlo ∧
        ((⌊mla / getGridSize z⌋ : ℤ) : ℚ) * getGridSize z = gla ∧
        ((⌊mlo / getGridSize z⌋ : ℤ) : ℚ) * getGridSize z = glo) ∧
      (∃ cla clo : ℚ, c.latitude = some cla ∧ c.longitude = some clo ∧
        gla ≤ cla ∧ cla < gla + getGridSize z ∧
        glo ≤ clo ∧ clo < glo + getGridSize z) := by
  unfold createClustersGrid at hc
  rw [List.mem_map] at hc
  obtain ⟨cell, hcell, hceq⟩ := hc
  obtain ⟨hne, hmem⟩ := gridCells_inv (getGridSize z) vs cell hcell
  subst hceq
  refine ⟨cell.1.1, cell.1.2, ?_, ?_⟩
  · intro m hm
    have hm2 : m ∈ cell.2 := hm
    obtain ⟨la, lo, hla, hlo, hkey⟩ := hmem m hm2
    exact ⟨la, lo, hla, hlo, (congrArg Prod.fst hkey).symm,
      (congrArg Prod.snd hkey).symm⟩
  · have hg := getGridSize_pos z
    have hlatB : ∀ o ∈ cell.2.map (fun m => m.latitude), ∃ q, o = some q ∧
        cell.1.1 ≤ q ∧ q < cell.1.1 + getGridSize z := by
      intro o ho
      rw [List.mem_map] at ho
      obtain ⟨m, hm, rfl⟩ := ho
      obtain ⟨la, lo, hla, hlo, hkey⟩ := hmem m hm
      have hk1 : cell.1.1 = ((⌊la / getGridSize z⌋ : ℤ) : ℚ) * getGridSize z :=
        congrArg Prod.fst hkey
      refine ⟨la, hla, ?_, ?_⟩
      · rw [hk1]
        exact (le_div_iff₀ hg).mp (Int.floor_le (la / getGridSize z))
      · rw [hk1]
        have h1 := (div_lt_iff₀ hg).mp (Int.lt_floor_add_one (la / getGridSize z))
        have h2 : (((⌊la / getGridSize z⌋ : ℤ) : ℚ) + 1) * getGridSize z
            = ((⌊la / getGridSize z⌋ : ℤ) : ℚ) * getGridSize z + getGridSize z := by
          ring
        linarith
    have hlonB : ∀ o ∈ cell.2.map (fun m => m.longitude), ∃ q, o = some q ∧
        cell.1.2 ≤ q ∧ q < cell.1.2 + getGridSize z := by
      intro o ho
      rw [List.mem_map] at ho
      obtain ⟨m, hm, rfl⟩ := ho
      obtain ⟨la, lo, hla, hlo, hkey⟩ := hmem m hm
      have hk2 : cell.1.2 = ((⌊lo / getGridSize z⌋ : ℤ) : ℚ) * getGridSize z :=
        congrArg Prod.snd hkey
      refine ⟨lo, hlo, ?_, ?_⟩
      · rw [hk2]
        exact (le_div_iff₀ hg).mp (Int.floor_le (lo / getGridSize z))
      · rw [hk2]
        have h1 := (div_lt_iff₀ hg).mp (Int.lt_floor_add_one (lo / getGridSize z))
        have h2 : (((⌊lo / getGridSize z⌋ : ℤ) : ℚ) + 1) * getGridSize z
            = ((⌊lo / getGridSize z⌋ : ℤ) : ℚ) * getGridSize z + getGridSize z := by
          ring
        linarith
    have hmapne1 : cell.2.map (fun m => m.latitude) ≠ [] := by
      simp [hne]
    have hmapne2 : cell.2.map (fun m => m.longitude) ≠ [] := by
      simp [hne]
    obtain ⟨mla2, hmla, hA1, hA2⟩ := optMean_bounds _ _ _ hmapne1 hlatB
    obtain ⟨mlo2, hmlo, hB1, hB2⟩ := optMean_bounds _ _ _ hmapne2 hlonB
    exact ⟨mla2, mlo2, hmla, hmlo, hA1, hA2, hB1, hB2⟩

/-- C9 witness: a single-visitor grid run, cell `(40, 40)` at grid size 20. -/
theorem C9_grid_cell_invariant_witness :
    ∃ gla glo : ℚ,
      (∀ m ∈ clusterG2solo.visitors, ∃ mla mlo : ℚ,
        m.latitude = some mla ∧ m.longitude = some mlo ∧
        ((⌊mla / getGridSize 1⌋ : ℤ) : ℚ) * getGridSize 1 = gla ∧
        ((⌊mlo / getGridSize 1⌋ : ℤ) : ℚ) * getGridSize 1 = glo) ∧
      (∃ cla clo : ℚ, clusterG2solo.latitude = some cla ∧
        clusterG2solo.longitude = some clo ∧
        gla ≤ cla ∧ cla < gla + getGridSize 1 ∧
        glo ≤ clo ∧ clo < glo + getGridSize 1) :=
  C9_grid_cell_invariant [gridV2] 1 clusterG2solo
    (by rw [createClustersGrid_solo_eval]; exact List.mem_singleton.mpr rfl)

/-- C10: `calculateDistance` is symmetric — swapping the two points gives the
same distance, since the formula depends only on the squared sines of the
half-differences and the product of the latitude cosines. -/
theorem C10_calculateDistance_symm
    (latitude1 longitude1 latitude2 longitude2 : ℝ) :
    calculateDistance latitude1 longitude1 latitude2 longitude2
      = calculateDistance latitude2 longitude2 latitude1 longitude1 := by
  unfold calculateDistance
  rw [havA_symm latitude1 longitude1 latitude2 longitude2]
